import Mathlib

/-!
# Session Brain — verification of the core decision engine

Shallow embedding of `src/session-brain/session_brain_server.py`: the
per-key sliding windows (`add_to_windows`, `prune_window`), the statistics
computation (`compute_ip_stats`, `percentile`), the decision policy
(`maybe_decide`), the decision ledger read (`list_decisions`) and the
analysis fallback path (`analyze`).

Modelling conventions:
* Python `time.time()*1000` (`now_ms`) becomes an explicit `now : Int`
  argument threaded through the functions.
* The SQLite event table and decision table become plain lists held in
  `SBState`, appended in insertion order; autoincrement row ids are not
  modelled (a row's id corresponds to its position).
* Python dictionaries (`ip_windows`, `active_blocks`) become association
  lists with `alookup` / `aset`.
* A Python exception raised by a failed ledger write becomes an
  `Except String` result; the `writeOk` flag selects whether the sqlite
  `INSERT` into `decisions` succeeds.
* `e.latency_ms or -1` uses Python truthiness: both `None` and `0` map
  to `-1` (`pyOrNeg1`).
-/

namespace SessionBrain

/-- Configuration constants of the server (env-supplied in the source:
`SB_WINDOW_SEC`, `SB_MAX_429_PER_WINDOW`, `SB_MAX_5XX_PER_WINDOW`,
`SB_MAX_TIMEOUTS_PER_WINDOW`, `SB_MAX_LATENCY_P95_MS`, `SB_BLOCK_TTL_SEC`,
`SB_DISCONNECT_STATUS`). -/
structure Config where
  WINDOW_SEC : Int
  MAX_429_PER_WINDOW : Int
  MAX_5XX_PER_WINDOW : Int
  MAX_TIMEOUTS_PER_WINDOW : Int
  MAX_LATENCY_P95_MS : Int
  BLOCK_TTL_SEC : Int
  DISCONNECT_STATUS : List Int
deriving DecidableEq

/-- The source's default configuration values. -/
def defaultConfig : Config :=
  { WINDOW_SEC := 60
    MAX_429_PER_WINDOW := 20
    MAX_5XX_PER_WINDOW := 15
    MAX_TIMEOUTS_PER_WINDOW := 10
    MAX_LATENCY_P95_MS := 2500
    BLOCK_TTL_SEC := 900
    DISCONNECT_STATUS := [499, 502, 503, 504] }

/-- The `EventIn` pydantic model: one inbound event. -/
structure EventIn where
  ts_ms : Option Int
  ip : String
  session : Option String
  endpoint : Option String
  status : Int
  latency_ms : Option Int
  backend : Option String
  error : Option String
deriving DecidableEq

/-- One window entry: the tuple
`(ts_ms, status, latency_ms or -1, endpoint or "", error or "")`
appended by `add_to_windows`. -/
structure WItem where
  ts_ms : Int
  status : Int
  latency : Int
  endpoint : String
  error : String
deriving DecidableEq

/-- One row of the SQLite `events` table (the fields the analysis path
reads back). -/
structure StoredEvent where
  ts_ms : Int
  ip : String
  session : Option String
  endpoint : Option String
  status : Int
  latency_ms : Option Int
  backend : Option String
  error : Option String
deriving DecidableEq

/-- The statistics snapshot produced by `compute_ip_stats` (and by the
analysis path).  The source returns a dict; for an empty or missing
window the dict omits the counter keys and `maybe_decide` reads them back
with `.get(_, 0)` / `.get(_)`, which is behaviourally identical to the
all-zero snapshot with an absent percentile used here. -/
structure Stats where
  count : Nat
  status_429 : Nat
  status_5xx : Nat
  disconnect_like : Nat
  latency_p95_ms : Option Int
deriving DecidableEq

/-- A block decision as built in `maybe_decide`.  `evidence` in the
source is the dict `{"stats": st}`; its single field is modelled
directly. -/
structure Decision where
  ts_ms : Int
  kind : String
  target : String
  ttl_sec : Int
  reason : String
  evidence : Stats
deriving DecidableEq

/-- The mutable state of the server: in-memory windows and active-block
registry, plus the two SQLite tables in insertion order. -/
structure SBState where
  ip_windows : List (String × List WItem)
  active_blocks : List (String × Int)
  decisions : List Decision
  events : List StoredEvent
deriving DecidableEq

/-- Association-list lookup (model of Python `dict.get`). -/
def alookup {α : Type} : List (String × α) → String → Option α
  | [], _ => none
  | (k, v) :: rest, key => if k = key then some v else alookup rest key

/-- Association-list update (model of Python `dict[key] = value`):
overwrites an existing entry, otherwise appends. -/
def aset {α : Type} : List (String × α) → String → α → List (String × α)
  | [], key, v => [(key, v)]
  | (k, w) :: rest, key, v =>
      if k = key then (key, v) :: rest else (k, w) :: aset rest key v

/-- Python `x or -1` on an optional integer: `None` and `0` are falsy. -/
def pyOrNeg1 : Option Int → Int
  | none => -1
  | some v => if v = 0 then -1 else v

/-- `prune_window(q, cutoff_ts_ms)`: pop entries from the front while
their timestamp is `< cutoff`. -/
def prune_window (q : List WItem) (cutoff_ts_ms : Int) : List WItem :=
  q.dropWhile (fun item => item.ts_ms < cutoff_ts_ms)

/-- Round `num / den` to the nearest natural number, ties to even —
the rounding Python's `round` performs. -/
def roundHalfEven (num den : Nat) : Nat :=
  let q := num / den
  let r := num % den
  if 2 * r < den then q
  else if den < 2 * r then q + 1
  else if q % 2 = 0 then q else q + 1

/-- The rank `int(round((n-1) * 0.95))` used by `percentile` at its only
call sites (`p = 0.95`), modelled as half-to-even rounding of the exact
rational `19*(n-1)/20`.  (Evaluating `(n-1)*0.95` in IEEE doubles, as
CPython does, agrees with this exact rounding for every `n-1` below
`2^48`, far beyond any representable window; the first float-induced
divergence occurs only near `n-1 ≈ 5.6e14`.) -/
def rank95 (m : Nat) : Nat :=
  roundHalfEven (19 * m) 20

/-- `percentile(values, p)` specialised to `p = 0.95`, the only `p` the
source ever passes: sort ascending, index `max(0, min(k, len-1))` with
`k = int(round((len-1)*0.95))`. -/
def percentile95 (values : List Int) : Option Int :=
  if values = [] then none
  else
    let s := values.insertionSort (· ≤ ·)
    let k := rank95 (s.length - 1)
    some (s.getD (max 0 (min k (s.length - 1))) 0)

/-- The latency list of `compute_ip_stats`:
`[x[2] for x in w if x[2] >= 0]`. -/
def measuredLatencies (w : List WItem) : List Int :=
  (w.filter (fun x => 0 ≤ x.latency)).map (fun x => x.latency)

/-- `compute_ip_stats(ip)`: counters and p95 over the key's current
window; an absent or empty window yields the zero snapshot. -/
def compute_ip_stats (cfg : Config) (windows : List (String × List WItem))
    (ip : String) : Stats :=
  match alookup windows ip with
  | none => ⟨0, 0, 0, 0, none⟩
  | some w =>
    if w = [] then ⟨0, 0, 0, 0, none⟩
    else
      let statuses := w.map (fun x => x.status)
      let latencies := measuredLatencies w
      { count := w.length
        status_429 := (statuses.filter (fun s => s = 429)).length
        status_5xx := (statuses.filter (fun s => 500 ≤ s ∧ s ≤ 599)).length
        disconnect_like :=
          (statuses.filter (fun s => s ∈ cfg.DISCONNECT_STATUS)).length
        latency_p95_ms :=
          if latencies = [] then none else percentile95 latencies }

/-- `record_event(e)`: insert one row into the `events` table (the
event's own timestamp, or the server time `now` when absent). -/
def record_event (st : SBState) (e : EventIn) (now : Int) : SBState :=
  let ts := e.ts_ms.getD now
  { st with
      events := st.events ++
        [⟨ts, e.ip, e.session, e.endpoint, e.status, e.latency_ms,
          e.backend, e.error⟩] }

/-- The window tuple `add_to_windows` appends for an event. -/
def mkItem (e : EventIn) (now : Int) : WItem :=
  ⟨e.ts_ms.getD now, e.status, pyOrNeg1 e.latency_ms,
    e.endpoint.getD "", e.error.getD ""⟩

/-- `add_to_windows(e)`: append the event's tuple to its key's window,
then prune against `ts - WINDOW_SEC*1000` where `ts` is the *inserted
event's* timestamp (not the current time). -/
def add_to_windows (cfg : Config) (windows : List (String × List WItem))
    (e : EventIn) (now : Int) : List (String × List WItem) :=
  let ts := e.ts_ms.getD now
  let cutoff := ts - cfg.WINDOW_SEC * 1000
  let w := (alookup windows e.ip).getD []
  aset windows e.ip (prune_window (w ++ [mkItem e now]) cutoff)

/-- Reason string of the 429 rule. -/
def reason_429 (cfg : Config) (c : Nat) : String :=
  "too many 429 in " ++ toString cfg.WINDOW_SEC ++ "s (" ++ toString c ++ ")"

/-- Reason string of the 5xx rule. -/
def reason_5xx (cfg : Config) (c : Nat) : String :=
  "too many 5xx in " ++ toString cfg.WINDOW_SEC ++ "s (" ++ toString c ++ ")"

/-- Reason string of the disconnect rule. -/
def reason_disc (cfg : Config) (c : Nat) : String :=
  "too many disconnect/timeout-like statuses in " ++ toString cfg.WINDOW_SEC
    ++ "s (" ++ toString c ++ ")"

/-- Reason string of the p95 rule. -/
def reason_p95 (v : Int) : String :=
  "p95 latency too high (" ++ toString v ++ "ms)"

/-- The `reasons` list built by `maybe_decide`: the four threshold rules
evaluated in fixed order (429, 5xx, disconnect, p95). -/
def reasonsFor (cfg : Config) (st : Stats) : List String :=
  (if (st.status_429 : Int) ≥ cfg.MAX_429_PER_WINDOW
    then [reason_429 cfg st.status_429] else [])
  ++ (if (st.status_5xx : Int) ≥ cfg.MAX_5XX_PER_WINDOW
    then [reason_5xx cfg st.status_5xx] else [])
  ++ (if (st.disconnect_like : Int) ≥ cfg.MAX_TIMEOUTS_PER_WINDOW
    then [reason_disc cfg st.disconnect_like] else [])
  ++ (match st.latency_p95_ms with
      | some p95 =>
          if p95 ≥ cfg.MAX_LATENCY_P95_MS then [reason_p95 p95] else []
      | none => [])

/-- The Python truthiness test `if exp and exp > now_ms()` guarding
re-evaluation: an entry blocks iff it is nonzero and strictly in the
future. -/
def isBlocked (st : SBState) (ip : String) (now : Int) : Bool :=
  match alookup st.active_blocks ip with
  | some exp => exp ≠ 0 && now < exp
  | none => false

/-- `maybe_decide(ip)`: skip when actively blocked; compute stats;
evaluate the four rules; when at least one matched, insert the decision
row into the `decisions` table and only then set the registry entry to
`ts_ms + ttl_sec*1000`.  `writeOk = false` models the sqlite insert
raising: the exception propagates (`Except.error`) before the registry
line runs. -/
def maybe_decide (cfg : Config) (writeOk : Bool) (st : SBState)
    (ip : String) (now : Int) : Except String (Option Decision) × SBState :=
  if isBlocked st ip now then (.ok none, st)
  else
    let stats := compute_ip_stats cfg st.ip_windows ip
    let reasons := reasonsFor cfg stats
    if reasons = [] then (.ok none, st)
    else
      let d : Decision :=
        { ts_ms := now
          kind := "block_ip"
          target := ip
          ttl_sec := cfg.BLOCK_TTL_SEC
          reason := String.intercalate "; " reasons
          evidence := stats }
      if writeOk then
        (.ok (some d),
          { st with
              decisions := st.decisions ++ [d]
              active_blocks :=
                aset st.active_blocks ip (d.ts_ms + d.ttl_sec * 1000) })
      else (.error "ledger write failed", st)

/-- The `/event` handler `ingest_event`: persist the event, add it to the
window, then run the decision policy. -/
def ingest_event (cfg : Config) (writeOk : Bool) (st : SBState)
    (e : EventIn) (now : Int) : Except String (Option Decision) × SBState :=
  let st1 := record_event st e now
  let st2 := { st1 with ip_windows := add_to_windows cfg st1.ip_windows e now }
  maybe_decide cfg writeOk st2 e.ip now

/-- The `/decisions` handler `list_decisions`: `SELECT ... ORDER BY ts_ms
DESC LIMIT ?` — newest-first by timestamp (ties scanned newest-row-first),
truncated to `limit`.  It takes no time range. -/
def list_decisions (st : SBState) (limit : Nat) : List Decision :=
  ((st.decisions.reverse).insertionSort
    (fun a b => b.ts_ms ≤ a.ts_ms)).take limit

instance : IsTotal Decision (fun a b => b.ts_ms ≤ a.ts_ms) :=
  ⟨fun a b => le_total b.ts_ms a.ts_ms⟩

instance : IsTrans Decision (fun a b => b.ts_ms ≤ a.ts_ms) :=
  ⟨fun _ _ _ hab hbc => le_trans hbc hab⟩

/-- A window holding twenty 429 samples at timestamp 1000 — enough to
trip the default 429 rule. -/
def w429 : List WItem := List.replicate 20 ⟨1000, 429, -1, "", ""⟩

/-- A server state whose window for `"1.2.3.4"` trips the 429 rule. -/
def st429 : SBState := ⟨[("1.2.3.4", w429)], [], [], []⟩

/-- A ledger row with timestamp 100, used to probe `list_decisions`. -/
def d100 : Decision :=
  { ts_ms := 100, kind := "block_ip", target := "9.9.9.9", ttl_sec := 900,
    reason := "r", evidence := ⟨0, 0, 0, 0, none⟩ }

/-- A stored event with status 200 and measured latency 100 — a non-zero
p95 below the latency threshold. -/
def evLat100 : StoredEvent :=
  ⟨1000, "1.2.3.4", none, none, 200, some 100, none, none⟩

/-- A stored event with status 429 and no measured latency. -/
def ev429 : StoredEvent :=
  ⟨1000, "1.2.3.4", none, none, 429, none, none, none⟩

/-- A state whose key `"1.2.3.4"` is blocked until 5000 and whose window
would trip the 429 rule if evaluated. -/
def stBlocked : SBState := ⟨[("1.2.3.4", w429)], [("1.2.3.4", 5000)], [], []⟩

/-- An inbound event with status 200 and no latency at t = 1000. -/
def ev200a : EventIn := ⟨some 1000, "1.2.3.4", none, none, 200, none, none, none⟩

/-- An inbound event with status 200 and latency 50 at t = 2000. -/
def ev200b : EventIn :=
  ⟨some 2000, "1.2.3.4", none, none, 200, some 50, none, none⟩

/-- An inbound event at timestamp 0, used to probe the window pruning
behaviour at a much later decision time. -/
def ev0 : EventIn := ⟨some 0, "1.2.3.4", none, none, 200, none, none, none⟩

/-- Fold `ingest_event` over a list of (event, arrival-time) pairs with a
healthy ledger, collecting each call's result. -/
def ingestAll (cfg : Config) (st : SBState) :
    List (EventIn × Int) → SBState × List (Except String (Option Decision))
  | [] => (st, [])
  | (e, now) :: rest =>
    let r := ingest_event cfg true st e now
    let rs := ingestAll cfg r.2 rest
    (rs.1, r.1 :: rs.2)

/-- Fold `add_to_windows` alone over a list of (event, arrival-time)
pairs: the Window Store's record path. -/
def addAll (cfg : Config) (windows : List (String × List WItem)) :
    List (EventIn × Int) → List (String × List WItem)
  | [] => windows
  | (e, now) :: rest => addAll cfg (add_to_windows cfg windows e now) rest

/-- Decidable property of a run: at every step, once the event has been
recorded and added to its window, the four threshold rules produce no
reason for that event's key. -/
def noTriggerRun (cfg : Config) (st : SBState) :
    List (EventIn × Int) → Bool
  | [] => true
  | (e, now) :: rest =>
    decide (reasonsFor cfg
      (compute_ip_stats cfg (add_to_windows cfg st.ip_windows e now) e.ip)
        = []) &&
      noTriggerRun cfg (ingest_event cfg true st e now).2 rest

/-- Result shape of the `/analyze` handler. -/
structure AnalysisResult where
  used_gemini : Bool
  summary : String
  key_points : List String
  suggested_actions : List String
  supporting_stats : Stats
deriving DecidableEq

/-- The statistics block `/analyze` computes over the queried event rows
(`statuses` keeps every integer status; `lat` keeps every present
`latency_ms`, including `0`). -/
def analyze_stats (cfg : Config) (events : List StoredEvent) : Stats :=
  let statuses := events.map (fun e => e.status)
  let lat := events.filterMap (fun e => e.latency_ms)
  { count := events.length
    status_429 := (statuses.filter (fun s => s = 429)).length
    status_5xx := (statuses.filter (fun s => 500 ≤ s ∧ s ≤ 599)).length
    disconnect_like :=
      (statuses.filter (fun s => s ∈ cfg.DISCONNECT_STATUS)).length
    latency_p95_ms := if lat = [] then none else percentile95 lat }

/-- Fallback key-point text for 429s. -/
def kp429 : String := "429 detected: possible rate limiting / protection"

/-- Fallback key-point text for 5xx. -/
def kp5xx : String := "5xx detected: backend crash/restart/timeout"

/-- Fallback key-point text for disconnect-like statuses. -/
def kpDisc : String := "disconnect-like statuses detected"

/-- Fallback key-point text for high p95 latency. -/
def kpP95 : String := "p95 latency high: saturation or downstream slowness"

/-- The generic fallback summary used when no key point fires. -/
def insufficientMsg : String :=
  "Insufficient signal; widen time range or filter by ip/session."

/-- The fixed suggested actions of the fallback path. -/
def suggestedActionsFallback : List String :=
  ["Lower RPM temporarily for affected sessions",
   "Mark suspect proxy as BAD and switch sessions",
   "Inspect logs around the spike window"]

/-- The key points the local fallback appends: one per counter `≥ 1`,
and the p95 point only when `stats["latency_p95_ms"]` is truthy (present
and nonzero) *and* `≥ MAX_LATENCY_P95_MS`. -/
def fallback_key_points (cfg : Config) (stats : Stats) : List String :=
  (if stats.status_429 ≥ 1 then [kp429] else [])
  ++ (if stats.status_5xx ≥ 1 then [kp5xx] else [])
  ++ (if stats.disconnect_like ≥ 1 then [kpDisc] else [])
  ++ (match stats.latency_p95_ms with
      | some v =>
          if v ≠ 0 ∧ v ≥ cfg.MAX_LATENCY_P95_MS then [kpP95] else []
      | none => [])

/-- Python string slice `s[:n]`: the first `n` code points. -/
def pySlice (s : String) (n : Nat) : String := ⟨s.data.take n⟩

/-- The `/analyze` handler on the path where Gemini is unconfigured (no
API key/model) or its call failed: `used_gemini = false` and the
deterministic local fallback builds the summary from the queried events.
`summary[:2000]` is the final truncation (`pySlice`). -/
def analyze_unconfigured (cfg : Config) (events : List StoredEvent) :
    AnalysisResult :=
  let stats := analyze_stats cfg events
  let kps := fallback_key_points cfg stats
  let summary :=
    if kps = [] then insufficientMsg else String.intercalate " | " kps
  { used_gemini := false
    summary := pySlice summary 2000
    key_points := kps
    suggested_actions := suggestedActionsFallback
    supporting_stats := stats }

/-- Modelled from the spec (§4.1, §8): the window contents the spec says
a snapshot read at reference time `t` must return — exactly the samples
with `t - timestamp ≤ W` (in milliseconds `W*1000`), in order.  Used to
compare the spec's claim with what the code actually reads. -/
def spec_snapshot (cfg : Config) (t : Int) (w : List WItem) : List WItem :=
  w.filter (fun s => t - s.ts_ms ≤ cfg.WINDOW_SEC * 1000)

/-- Modelled from the spec (§4.4): the claimed ledger query
`query(fromTs, toTs, limit)` — decisions whose timestamps fall in the
range, newest-first, bounded by `limit`. -/
def query_spec (decisions : List Decision) (fromTs toTs : Int)
    (limit : Nat) : List Decision :=
  (((decisions.filter (fun d => fromTs ≤ d.ts_ms ∧ d.ts_ms ≤ toTs)).reverse).insertionSort
    (fun a b => b.ts_ms ≤ a.ts_ms)).take limit

/-! ## Helper lemmas -/

theorem alookup_aset_self {α : Type} (l : List (String × α)) (k : String)
    (v : α) : alookup (aset l k v) k = some v := by
  induction l with
  | nil => simp [aset, alookup]
  | cons p rest ih =>
    by_cases h : p.1 = k
    · simp [aset, h, alookup]
    · simp [aset, h, alookup, ih]

theorem alookup_aset_ne {α : Type} (l : List (String × α)) (k k' : String)
    (v : α) (h : k ≠ k') : alookup (aset l k v) k' = alookup l k' := by
  induction l with
  | nil => simp [aset, alookup, h]
  | cons p rest ih =>
    by_cases hp : p.1 = k
    · simp [aset, hp, alookup, h]
    · simp [aset, hp, alookup, ih]

/-! ## Claims -/

/-- **C4.** For every non-empty list of measured latencies of length `n`,
the p95 statistic is the element at rank `round(0.95 * (n-1))` (Python's
`round`, i.e. half-to-even) of an ascending sort, the rank clamped to
`[0, n-1]`; over `[100,200,300,400,500]` it is `500`; on an empty list,
and whenever a window has no measured latency, the statistic is absent. -/
theorem C4_p95_nearest_rank :
    (∀ values : List Int, values ≠ [] →
      ∃ s : List Int, List.Sorted (· ≤ ·) s ∧ values.Perm s ∧
        percentile95 values =
          some (s.getD
            (max 0 (min (roundHalfEven (19 * (values.length - 1)) 20)
              (values.length - 1))) 0))
    ∧ percentile95 [100, 200, 300, 400, 500] = some 500
    ∧ percentile95 [] = none
    ∧ ∀ (cfg : Config) (windows : List (String × List WItem)) (ip : String),
        measuredLatencies ((alookup windows ip).getD []) = [] →
        (compute_ip_stats cfg windows ip).latency_p95_ms = none := by
  refine ⟨?_, by decide, by decide, ?_⟩
  · intro values hne
    refine ⟨values.insertionSort (· ≤ ·), List.sorted_insertionSort _ _,
      (List.perm_insertionSort _ _).symm, ?_⟩
    simp only [percentile95, if_neg hne, rank95,
      (List.perm_insertionSort (· ≤ ·) values).length_eq]
  · intro cfg windows ip h
    rw [compute_ip_stats]
    cases hl : alookup windows ip with
    | none => rfl
    | some w =>
      rw [hl] at h
      simp only [Option.getD_some] at h
      by_cases hw : w = []
      · simp [hw]
      · simp [hw, h]

/-- Witness for C4 at concrete inputs. -/
theorem C4_p95_nearest_rank_witness :
    (∃ s : List Int, List.Sorted (· ≤ ·) s ∧ ([300, 100, 200] : List Int).Perm s ∧
      percentile95 [300, 100, 200] =
        some (s.getD (max 0 (min (roundHalfEven (19 * 2) 20) 2)) 0))
    ∧ (compute_ip_stats defaultConfig [] "1.2.3.4").latency_p95_ms = none :=
  ⟨C4_p95_nearest_rank.1 [300, 100, 200] (by decide),
    C4_p95_nearest_rank.2.2.2 defaultConfig [] "1.2.3.4" (by decide)⟩

/-- **C9.** An event whose `latency_ms` is exactly `0` is stored in the
window as latency `-1` — identically to an absent latency — and is
excluded from the measured-latency list (hence from the p95). -/
theorem C9_zero_latency_unmeasured (e : EventIn) (now : Int)
    (h : e.latency_ms = some 0) :
    mkItem e now = mkItem { e with latency_ms := none } now
    ∧ (∀ (cfg : Config) (windows : List (String × List WItem)),
        add_to_windows cfg windows e now
          = add_to_windows cfg windows { e with latency_ms := none } now)
    ∧ ∀ w : List WItem,
        measuredLatencies (w ++ [mkItem e now]) = measuredLatencies w := by
  have hitem : mkItem e now = mkItem { e with latency_ms := none } now := by
    simp [mkItem, h, pyOrNeg1]
  refine ⟨hitem, ?_, ?_⟩
  · intro cfg windows
    simp [add_to_windows, hitem]
  · intro w
    have hlat : (mkItem e now).latency = -1 := by simp [mkItem, h, pyOrNeg1]
    simp [measuredLatencies, List.filter_append, hlat]

/-- Witness for C9 at a concrete event. -/
theorem C9_zero_latency_unmeasured_witness :
    (mkItem ⟨some 5, "1.2.3.4", none, none, 200, some 0, none, none⟩ 5
      = mkItem ⟨some 5, "1.2.3.4", none, none, 200, none, none, none⟩ 5)
    ∧ (∀ (cfg : Config) (windows : List (String × List WItem)),
        add_to_windows cfg windows
            ⟨some 5, "1.2.3.4", none, none, 200, some 0, none, none⟩ 5
          = add_to_windows cfg windows
            ⟨some 5, "1.2.3.4", none, none, 200, none, none, none⟩ 5)
    ∧ ∀ w : List WItem,
        measuredLatencies
            (w ++ [mkItem ⟨some 5, "1.2.3.4", none, none, 200, some 0, none, none⟩ 5])
          = measuredLatencies w :=
  C9_zero_latency_unmeasured
    ⟨some 5, "1.2.3.4", none, none, 200, some 0, none, none⟩ 5 rfl

/-- **C5 counterexample.** A decision emitted by the code has
`kind = "block_ip"`, not `kind = "block"` as the claim states. -/
theorem C5_counterexample :
    (maybe_decide defaultConfig true st429 "1.2.3.4" 1000).1 =
      .ok (some { ts_ms := 1000, kind := "block_ip", target := "1.2.3.4",
                  ttl_sec := 900, reason := reason_429 defaultConfig 20,
                  evidence := ⟨20, 20, 0, 0, none⟩ })
    ∧ "block_ip" ≠ "block" :=
  ⟨rfl, by decide⟩

/-- **C5 (amended).** Every emitted Block Decision has
`kind = "block_ip"` (not `"block"`), `ttl_sec` equal to the configured
`BLOCK_TTL_SEC`, `evidence` equal to the statistics snapshot that
triggered it, and `reason` equal to the matched rule descriptions joined
with `"; "` in the fixed rule order of `reasonsFor` (429 rule, 5xx rule,
disconnect rule, p95 rule). -/
theorem C5_decision_shape (cfg : Config) (writeOk : Bool) (st : SBState)
    (ip : String) (now : Int) (d : Decision)
    (h : (maybe_decide cfg writeOk st ip now).1 = .ok (some d)) :
    d.kind = "block_ip" ∧ d.target = ip ∧ d.ts_ms = now
    ∧ d.ttl_sec = cfg.BLOCK_TTL_SEC
    ∧ d.evidence = compute_ip_stats cfg st.ip_windows ip
    ∧ d.reason = String.intercalate "; "
        (reasonsFor cfg (compute_ip_stats cfg st.ip_windows ip))
    ∧ reasonsFor cfg (compute_ip_stats cfg st.ip_windows ip) ≠ [] := by
  by_cases hb : isBlocked st ip now
  · simp [maybe_decide, hb] at h
  · by_cases hr : reasonsFor cfg (compute_ip_stats cfg st.ip_windows ip) = []
    · simp [maybe_decide, hb, hr] at h
    · cases writeOk with
      | false => simp [maybe_decide, hb, hr] at h
      | true =>
        simp only [maybe_decide, hb, if_false, if_neg hr, if_true,
          Bool.false_eq_true, ite_false, ite_true] at h
        have hd : d =
            { ts_ms := now
              kind := "block_ip"
              target := ip
              ttl_sec := cfg.BLOCK_TTL_SEC
              reason := String.intercalate "; "
                (reasonsFor cfg (compute_ip_stats cfg st.ip_windows ip))
              evidence := compute_ip_stats cfg st.ip_windows ip } := by
          exact (Option.some_injective _ (Except.ok.inj h)).symm
        subst hd
        exact ⟨rfl, rfl, rfl, rfl, rfl, rfl, hr⟩

/-- Witness for C5 (amended) on a concrete triggering run. -/
theorem C5_decision_shape_witness :
    ({ ts_ms := 1000, kind := "block_ip", target := "1.2.3.4",
       ttl_sec := 900, reason := reason_429 defaultConfig 20,
       evidence := ⟨20, 20, 0, 0, none⟩ } : Decision).kind = "block_ip"
    ∧ ({ ts_ms := 1000, kind := "block_ip", target := "1.2.3.4",
         ttl_sec := 900, reason := reason_429 defaultConfig 20,
         evidence := ⟨20, 20, 0, 0, none⟩ } : Decision).target = "1.2.3.4"
    ∧ ({ ts_ms := 1000, kind := "block_ip", target := "1.2.3.4",
         ttl_sec := 900, reason := reason_429 defaultConfig 20,
         evidence := ⟨20, 20, 0, 0, none⟩ } : Decision).ts_ms = 1000
    ∧ ({ ts_ms := 1000, kind := "block_ip", target := "1.2.3.4",
         ttl_sec := 900, reason := reason_429 defaultConfig 20,
         evidence := ⟨20, 20, 0, 0, none⟩ } : Decision).ttl_sec
        = defaultConfig.BLOCK_TTL_SEC
    ∧ ({ ts_ms := 1000, kind := "block_ip", target := "1.2.3.4",
         ttl_sec := 900, reason := reason_429 defaultConfig 20,
         evidence := ⟨20, 20, 0, 0, none⟩ } : Decision).evidence
        = compute_ip_stats defaultConfig st429.ip_windows "1.2.3.4"
    ∧ ({ ts_ms := 1000, kind := "block_ip", target := "1.2.3.4",
         ttl_sec := 900, reason := reason_429 defaultConfig 20,
         evidence := ⟨20, 20, 0, 0, none⟩ } : Decision).reason
        = String.intercalate "; "
          (reasonsFor defaultConfig
            (compute_ip_stats defaultConfig st429.ip_windows "1.2.3.4"))
    ∧ reasonsFor defaultConfig
        (compute_ip_stats defaultConfig st429.ip_windows "1.2.3.4") ≠ [] :=
  C5_decision_shape defaultConfig true st429 "1.2.3.4" 1000 _ rfl

/-- **C7 counterexample.** The code's ledger query takes no time range:
for the requested range `[200, 300]` the claim demands only decisions
with timestamps in that range, yet the code returns the decision with
timestamp 100. -/
theorem C7_counterexample :
    list_decisions ⟨[], [], [d100], []⟩ 10 = [d100]
    ∧ query_spec [d100] 200 300 10 = []
    ∧ ¬(200 ≤ d100.ts_ms ∧ d100.ts_ms ≤ 300) :=
  ⟨rfl, rfl, by decide⟩

/-- **C7 (amended).** `list_decisions` takes only a `limit` (no time
range): it returns ledger decisions ordered newest-first, exactly
`min limit n` of them, every one drawn from the ledger — with no
time-range filtering. -/
theorem C7_list_decisions (st : SBState) (limit : Nat) :
    List.Sorted (fun a b => b.ts_ms ≤ a.ts_ms) (list_decisions st limit)
    ∧ (list_decisions st limit).length = min limit st.decisions.length
    ∧ ∀ d ∈ list_decisions st limit, d ∈ st.decisions := by
  refine ⟨?_, ?_, ?_⟩
  · exact List.Pairwise.sublist (List.take_sublist _ _)
      (List.sorted_insertionSort _ _)
  · rw [list_decisions, List.length_take,
      (List.perm_insertionSort _ _).length_eq, List.length_reverse]
  · intro d hd
    have h1 := List.mem_of_mem_take hd
    rw [List.mem_insertionSort, List.mem_reverse] at h1
    exact h1

/-- Witness for C7 (amended) at a concrete ledger. -/
theorem C7_list_decisions_witness :
    List.Sorted (fun a b => b.ts_ms ≤ a.ts_ms)
      (list_decisions ⟨[], [], [d100], []⟩ 10)
    ∧ (list_decisions ⟨[], [], [d100], []⟩ 10).length
        = min 10 (SBState.decisions ⟨[], [], [d100], []⟩).length
    ∧ ∀ d ∈ list_decisions ⟨[], [], [d100], []⟩ 10,
        d ∈ SBState.decisions ⟨[], [], [d100], []⟩ :=
  C7_list_decisions ⟨[], [], [d100], []⟩ 10

/-- **C3.** A ledger write failure during decision emission aborts the
decision: the whole state — in particular the Active Block Registry — is
left unchanged, the failure surfaces to the caller as an error (when a
rule matched and the key was not suppressed), and in every run the
registry changes only together with the corresponding ledger append. -/
theorem C3_ledger_failure_aborts (cfg : Config) (st : SBState)
    (ip : String) (now : Int) :
    (maybe_decide cfg false st ip now).2 = st
    ∧ (¬ isBlocked st ip now = true →
        reasonsFor cfg (compute_ip_stats cfg st.ip_windows ip) ≠ [] →
        (maybe_decide cfg false st ip now).1 = .error "ledger write failed")
    ∧ ∀ writeOk : Bool,
        (maybe_decide cfg writeOk st ip now).2.active_blocks
            ≠ st.active_blocks →
        ∃ d : Decision, (maybe_decide cfg writeOk st ip now).1 = .ok (some d)
          ∧ (maybe_decide cfg writeOk st ip now).2.decisions
              = st.decisions ++ [d] := by
  by_cases hb : isBlocked st ip now
  · refine ⟨by simp [maybe_decide, hb], fun hnb _ => absurd hb hnb, ?_⟩
    intro writeOk hne
    exact absurd (by simp [maybe_decide, hb]) hne
  · by_cases hr : reasonsFor cfg (compute_ip_stats cfg st.ip_windows ip) = []
    · refine ⟨by simp [maybe_decide, hb, hr], fun _ hr2 => absurd hr hr2, ?_⟩
      intro writeOk hne
      exact absurd (by simp [maybe_decide, hb, hr]) hne
    · refine ⟨by simp [maybe_decide, hb, hr], fun _ _ => by
        simp [maybe_decide, hb, hr], ?_⟩
      intro writeOk hne
      cases writeOk with
      | false => exact absurd (by simp [maybe_decide, hb, hr]) hne
      | true =>
        refine
          ⟨{ ts_ms := now
             kind := "block_ip"
             target := ip
             ttl_sec := cfg.BLOCK_TTL_SEC
             reason := String.intercalate "; "
               (reasonsFor cfg (compute_ip_stats cfg st.ip_windows ip))
             evidence := compute_ip_stats cfg st.ip_windows ip }, ?_, ?_⟩ <;>
          simp [maybe_decide, hb, hr]

/-- Witness for C3 on a concrete triggering state with a failing ledger:
the error surfaces and the state (registry included) is unchanged. -/
theorem C3_ledger_failure_aborts_witness :
    (maybe_decide defaultConfig false st429 "1.2.3.4" 1000).2 = st429
    ∧ (maybe_decide defaultConfig false st429 "1.2.3.4" 1000).1
        = .error "ledger write failed" :=
  ⟨(C3_ledger_failure_aborts defaultConfig st429 "1.2.3.4" 1000).1,
    (C3_ledger_failure_aborts defaultConfig st429 "1.2.3.4" 1000).2.1
      (by decide) (by decide)⟩

/-- Characterisation of the fallback key points: each of the three
counter-based points fires iff its counter is `≥ 1`; the p95 point fires
iff the percentile is present, nonzero and at threshold; a nonempty
key-point list joins to a nonempty summary. -/
theorem fallback_kp_spec (cfg : Config) (s : Stats) :
    (kp429 ∈ fallback_key_points cfg s ↔ 1 ≤ s.status_429)
    ∧ (kp5xx ∈ fallback_key_points cfg s ↔ 1 ≤ s.status_5xx)
    ∧ (kpDisc ∈ fallback_key_points cfg s ↔ 1 ≤ s.disconnect_like)
    ∧ (kpP95 ∈ fallback_key_points cfg s ↔
        ∃ v : Int, s.latency_p95_ms = some v ∧ v ≠ 0
          ∧ cfg.MAX_LATENCY_P95_MS ≤ v)
    ∧ (fallback_key_points cfg s = [] ∨
        pySlice (String.intercalate " | " (fallback_key_points cfg s)) 2000
          ≠ "") := by
  by_cases h1 : 1 ≤ s.status_429 <;>
    by_cases h2 : 1 ≤ s.status_5xx <;>
      by_cases h3 : 1 ≤ s.disconnect_like <;>
        rcases hp : s.latency_p95_ms with _ | v
  all_goals
    try (by_cases h4 : v ≠ 0 ∧ v ≥ cfg.MAX_LATENCY_P95_MS)
  all_goals
    simp only [fallback_key_points, hp, h1, h2, h3, if_true, if_false,
      ite_true, ite_false, if_pos, if_neg, not_false_iff]
  all_goals
    first
      | (simp [h1, h2, h3, h4, ge_iff_le, List.mem_append]; try decide)
      | (simp [h1, h2, h3, ge_iff_le, List.mem_append]; try decide)

/-- **C6 counterexample.** The claim says the fallback emits one key
point per non-zero counter in the stats, including "high p95 latency".
For a single event with latency 100 the p95 stat is a non-zero `100`,
yet the code emits no key point at all (the p95 point additionally
requires `p95 >= MAX_LATENCY_P95_MS`), and the summary is the generic
fallback message. -/
theorem C6_counterexample :
    (analyze_stats defaultConfig [evLat100]).latency_p95_ms = some 100
    ∧ (100 : Int) ≠ 0
    ∧ (analyze_unconfigured defaultConfig [evLat100]).key_points = []
    ∧ (analyze_unconfigured defaultConfig [evLat100]).summary
        = insufficientMsg := by
  decide

/-- **C6 (amended).** On the unconfigured path the analysis result has
`used_gemini = false`, the fixed suggested actions, and the deterministic
fallback key points: one per non-zero 429 / 5xx / disconnect-like
counter, and the p95 point exactly when the p95 stat is present, nonzero
and at least `MAX_LATENCY_P95_MS` (not merely non-zero); the summary is
the key points joined with " | " (non-empty) when any fired, and the
generic fallback message when none fired. -/
theorem C6_fallback (cfg : Config) (events : List StoredEvent) :
    (analyze_unconfigured cfg events).used_gemini = false
    ∧ (analyze_unconfigured cfg events).suggested_actions
        = suggestedActionsFallback
    ∧ (analyze_unconfigured cfg events).supporting_stats
        = analyze_stats cfg events
    ∧ (analyze_unconfigured cfg events).key_points
        = fallback_key_points cfg (analyze_stats cfg events)
    ∧ (kp429 ∈ (analyze_unconfigured cfg events).key_points ↔
        1 ≤ (analyze_stats cfg events).status_429)
    ∧ (kp5xx ∈ (analyze_unconfigured cfg events).key_points ↔
        1 ≤ (analyze_stats cfg events).status_5xx)
    ∧ (kpDisc ∈ (analyze_unconfigured cfg events).key_points ↔
        1 ≤ (analyze_stats cfg events).disconnect_like)
    ∧ (kpP95 ∈ (analyze_unconfigured cfg events).key_points ↔
        ∃ v : Int, (analyze_stats cfg events).latency_p95_ms = some v
          ∧ v ≠ 0 ∧ cfg.MAX_LATENCY_P95_MS ≤ v)
    ∧ ((analyze_unconfigured cfg events).key_points = [] →
        (analyze_unconfigured cfg events).summary = insufficientMsg)
    ∧ ((analyze_unconfigured cfg events).key_points ≠ [] →
        (analyze_unconfigured cfg events).summary ≠ "") := by
  have hkp : (analyze_unconfigured cfg events).key_points
      = fallback_key_points cfg (analyze_stats cfg events) := rfl
  have h := fallback_kp_spec cfg (analyze_stats cfg events)
  refine ⟨rfl, rfl, rfl, rfl, ?_, ?_, ?_, ?_, ?_, ?_⟩
  · rw [hkp]; exact h.1
  · rw [hkp]; exact h.2.1
  · rw [hkp]; exact h.2.2.1
  · rw [hkp]; exact h.2.2.2.1
  · intro hk
    rw [hkp] at hk
    have hs : (analyze_unconfigured cfg events).summary
        = pySlice insufficientMsg 2000 := by
      simp [analyze_unconfigured, hk]
    rw [hs]
    decide
  · intro hk
    rw [hkp] at hk
    rcases h.2.2.2.2 with hnil | hne
    · exact absurd hnil hk
    · have hs : (analyze_unconfigured cfg events).summary
          = pySlice (String.intercalate " | "
              (fallback_key_points cfg (analyze_stats cfg events))) 2000 := by
        simp [analyze_unconfigured, hk]
      rw [hs]
      exact hne

/-- Witness for C6 (amended) on one 429 event: the 429 key point fires
and the summary is non-empty. -/
theorem C6_fallback_witness :
    (analyze_unconfigured defaultConfig [ev429]).used_gemini = false
    ∧ kp429 ∈ (analyze_unconfigured defaultConfig [ev429]).key_points
    ∧ (analyze_unconfigured defaultConfig [ev429]).summary ≠ "" :=
  ⟨(C6_fallback defaultConfig [ev429]).1,
    ((C6_fallback defaultConfig [ev429]).2.2.2.2.1).mpr (by decide),
    (C6_fallback defaultConfig [ev429]).2.2.2.2.2.2.2.2.2 (by decide)⟩

/-- The appended item survives pruning when it is not itself stale. -/
theorem mem_prune_append (w : List WItem) (x : WItem) (c : Int)
    (hx : ¬ x.ts_ms < c) : x ∈ prune_window (w ++ [x]) c := by
  induction w with
  | nil => simp [prune_window, List.dropWhile, hx]
  | cons y ys ih =>
    by_cases hy : y.ts_ms < c
    · simpa [prune_window, List.dropWhile_cons, hy] using ih
    · simp [prune_window, List.dropWhile_cons, hy]

/-- A registry entry that is nonzero and in the future suppresses
evaluation. -/
theorem isBlocked_true_of (st : SBState) (ip : String) (now exp : Int)
    (hreg : alookup st.active_blocks ip = some exp) (h0 : exp ≠ 0)
    (hlt : now < exp) : isBlocked st ip now = true := by
  simp only [isBlocked, hreg]
  rw [Bool.and_eq_true, decide_eq_true_iff, decide_eq_true_iff]
  exact ⟨h0, hlt⟩

/-- A blocked key short-circuits `maybe_decide`. -/
theorem maybe_decide_blocked (cfg : Config) (writeOk : Bool)
    (st : SBState) (ip : String) (now : Int)
    (hb : isBlocked st ip now = true) :
    maybe_decide cfg writeOk st ip now = (.ok none, st) := by
  simp [maybe_decide, hb]

/-- When no rule matches, `maybe_decide` is a no-op returning nothing. -/
theorem maybe_decide_no_reasons (cfg : Config) (writeOk : Bool)
    (st : SBState) (ip : String) (now : Int)
    (hr : reasonsFor cfg (compute_ip_stats cfg st.ip_windows ip) = []) :
    maybe_decide cfg writeOk st ip now = (.ok none, st) := by
  by_cases hb : isBlocked st ip now <;> simp [maybe_decide, hb, hr]

/-- **C2.** Once the registry holds `T + S*1000` for key `K`, any event
arriving at `now < T + S*1000` is suppressed (no decision, no state
change); for an event at `now ≥ T + S*1000` whose statistics match at
least one rule, exactly one new decision is produced — appended to the
ledger, with the registry entry overwritten to `now + BLOCK_TTL*1000`. -/
theorem C2_at_most_one_active_block (cfg : Config) (st : SBState)
    (K : String) (now T S : Int)
    (hreg : alookup st.active_blocks K = some (T + S * 1000))
    (hnow : 0 ≤ now) :
    (now < T + S * 1000 →
      maybe_decide cfg true st K now = (.ok none, st))
    ∧ (T + S * 1000 ≤ now →
        reasonsFor cfg (compute_ip_stats cfg st.ip_windows K) ≠ [] →
        ∃ d : Decision,
          maybe_decide cfg true st K now =
            (.ok (some d),
              { st with
                  decisions := st.decisions ++ [d]
                  active_blocks :=
                    aset st.active_blocks K
                      (now + cfg.BLOCK_TTL_SEC * 1000) })
          ∧ d.ts_ms = now) := by
  constructor
  · intro hlt
    have hb : isBlocked st K now = true := by
      simp only [isBlocked, hreg]
      rw [Bool.and_eq_true, decide_eq_true_iff, decide_eq_true_iff]
      omega
    simp [maybe_decide, hb]
  · intro hge hr
    have hb : isBlocked st K now = false := by
      simp only [isBlocked, hreg]
      rw [Bool.and_eq_false_iff]
      right
      rw [decide_eq_false_iff_not]
      omega
    refine
      ⟨{ ts_ms := now
         kind := "block_ip"
         target := K
         ttl_sec := cfg.BLOCK_TTL_SEC
         reason := String.intercalate "; "
           (reasonsFor cfg (compute_ip_stats cfg st.ip_windows K))
         evidence := compute_ip_stats cfg st.ip_windows K }, ?_, rfl⟩
    simp [maybe_decide, hb, hr]

/-- Witness for C2 at a concrete blocked state (entry 5000 = 4000+1000):
suppressed at 1000, one decision emitted at 6000. -/
theorem C2_at_most_one_active_block_witness :
    (maybe_decide defaultConfig true stBlocked "1.2.3.4" 1000
      = (.ok none, stBlocked))
    ∧ ∃ d : Decision,
        maybe_decide defaultConfig true stBlocked "1.2.3.4" 6000 =
          (.ok (some d),
            { stBlocked with
                decisions := stBlocked.decisions ++ [d]
                active_blocks :=
                  aset stBlocked.active_blocks "1.2.3.4"
                    (6000 + defaultConfig.BLOCK_TTL_SEC * 1000) })
        ∧ d.ts_ms = 6000 :=
  ⟨(C2_at_most_one_active_block defaultConfig stBlocked "1.2.3.4" 1000
      4000 1 rfl (by decide)).1 (by decide),
    (C2_at_most_one_active_block defaultConfig stBlocked "1.2.3.4" 6000
      4000 1 rfl (by decide)).2 (by decide) (by decide)⟩

/-- **C10.** An event ingested while its key holds a non-expired block is
still persisted to the event store and appended to the key's window; only
the decision evaluation is suppressed (no decision, ledger and registry
unchanged). -/
theorem C10_ingest_while_blocked (cfg : Config) (writeOk : Bool)
    (st : SBState) (e : EventIn) (now exp : Int)
    (hreg : alookup st.active_blocks e.ip = some exp)
    (h0 : exp ≠ 0) (hlt : now < exp) (hW : 0 ≤ cfg.WINDOW_SEC) :
    (ingest_event cfg writeOk st e now).1 = .ok none
    ∧ (ingest_event cfg writeOk st e now).2.events
        = st.events ++ [⟨e.ts_ms.getD now, e.ip, e.session, e.endpoint,
            e.status, e.latency_ms, e.backend, e.error⟩]
    ∧ (ingest_event cfg writeOk st e now).2.ip_windows
        = add_to_windows cfg st.ip_windows e now
    ∧ mkItem e now ∈
        (alookup ((ingest_event cfg writeOk st e now).2.ip_windows)
          e.ip).getD []
    ∧ (ingest_event cfg writeOk st e now).2.decisions = st.decisions
    ∧ (ingest_event cfg writeOk st e now).2.active_blocks
        = st.active_blocks := by
  have hb : isBlocked
      { record_event st e now with
        ip_windows := add_to_windows cfg st.ip_windows e now } e.ip now
        = true := isBlocked_true_of _ e.ip now exp hreg h0 hlt
  have hrun : ingest_event cfg writeOk st e now =
      (.ok none,
        { record_event st e now with
          ip_windows := add_to_windows cfg st.ip_windows e now }) :=
    maybe_decide_blocked cfg writeOk _ e.ip now hb
  rw [hrun]
  refine ⟨rfl, rfl, rfl, ?_, rfl, rfl⟩
  rw [add_to_windows]
  simp only [alookup_aset_self, Option.getD_some]
  apply mem_prune_append
  have : (mkItem e now).ts_ms = e.ts_ms.getD now := rfl
  rw [this]
  have h1000 : 0 ≤ cfg.WINDOW_SEC * 1000 := by omega
  omega

/-- Witness for C10: ingesting a 429 event at 1000 while blocked until
5000 records the event, appends to the window and decides nothing. -/
theorem C10_ingest_while_blocked_witness :
    (ingest_event defaultConfig true stBlocked ev200a 1000).1 = .ok none
    ∧ (ingest_event defaultConfig true stBlocked ev200a 1000).2.events
        = stBlocked.events ++ [⟨(ev200a.ts_ms.getD 1000), ev200a.ip,
            ev200a.session, ev200a.endpoint, ev200a.status,
            ev200a.latency_ms, ev200a.backend, ev200a.error⟩]
    ∧ (ingest_event defaultConfig true stBlocked ev200a 1000).2.ip_windows
        = add_to_windows defaultConfig stBlocked.ip_windows ev200a 1000
    ∧ mkItem ev200a 1000 ∈
        (alookup ((ingest_event defaultConfig true stBlocked
          ev200a 1000).2.ip_windows) ev200a.ip).getD []
    ∧ (ingest_event defaultConfig true stBlocked ev200a 1000).2.decisions
        = stBlocked.decisions
    ∧ (ingest_event defaultConfig true stBlocked
        ev200a 1000).2.active_blocks = stBlocked.active_blocks :=
  C10_ingest_while_blocked defaultConfig true stBlocked ev200a 1000 5000
    rfl (by decide) (by decide) (by decide)

/-- **C8.** Over any run of ingested events in which no threshold rule
ever matches, every evaluation returns nothing, nothing is appended to
the Decision Ledger, and the Active Block Registry is left unchanged, so
a key with no registry entry never acquires one. -/
theorem C8_no_trigger_no_effect (cfg : Config) (st : SBState)
    (evs : List (EventIn × Int)) (h : noTriggerRun cfg st evs = true) :
    (ingestAll cfg st evs).1.decisions = st.decisions
    ∧ (ingestAll cfg st evs).1.active_blocks = st.active_blocks
    ∧ (ingestAll cfg st evs).2 = evs.map (fun _ => Except.ok none) := by
  induction evs generalizing st with
  | nil => exact ⟨rfl, rfl, rfl⟩
  | cons p rest ih =>
    obtain ⟨e, now⟩ := p
    rw [noTriggerRun, Bool.and_eq_true, decide_eq_true_iff] at h
    obtain ⟨hr, hrest⟩ := h
    have hstep : ingest_event cfg true st e now =
        (.ok none,
          { record_event st e now with
            ip_windows := add_to_windows cfg st.ip_windows e now }) :=
      maybe_decide_no_reasons cfg true _ e.ip now hr
    rw [hstep] at hrest
    obtain ⟨i1, i2, i3⟩ := ih
      { record_event st e now with
        ip_windows := add_to_windows cfg st.ip_windows e now } hrest
    refine ⟨?_, ?_, ?_⟩
    · simp only [ingestAll, hstep]
      exact i1
    · simp only [ingestAll, hstep]
      exact i2
    · simp only [ingestAll, hstep, List.map_cons]
      rw [i3]

/-- Witness for C8: two non-triggering status-200 events starting from
the empty state change neither ledger nor registry and decide nothing. -/
theorem C8_no_trigger_no_effect_witness :
    (ingestAll defaultConfig (SBState.mk [] [] [] [])
        [(ev200a, 1000), (ev200b, 2000)]).1.decisions
      = (SBState.mk [] [] [] []).decisions
    ∧ (ingestAll defaultConfig (SBState.mk [] [] [] [])
        [(ev200a, 1000), (ev200b, 2000)]).1.active_blocks
      = (SBState.mk [] [] [] []).active_blocks
    ∧ (ingestAll defaultConfig (SBState.mk [] [] [] [])
        [(ev200a, 1000), (ev200b, 2000)]).2
      = [(ev200a, (1000 : Int)), (ev200b, 2000)].map
          (fun _ => Except.ok none) :=
  C8_no_trigger_no_effect defaultConfig (SBState.mk [] [] [] [])
    [(ev200a, 1000), (ev200b, 2000)] (by decide)

/-- On a timestamp-sorted window, front pruning is exactly filtering. -/
theorem dropWhile_sorted_eq_filter (c : Int) (l : List WItem)
    (hs : l.Pairwise (fun a b => a.ts_ms ≤ b.ts_ms)) :
    l.dropWhile (fun x => x.ts_ms < c) = l.filter (fun x => c ≤ x.ts_ms) := by
  induction l with
  | nil => rfl
  | cons y ys ih =>
    rw [List.pairwise_cons] at hs
    obtain ⟨hy, hys⟩ := hs
    by_cases h : y.ts_ms < c
    · have h2 : ¬ c ≤ y.ts_ms := by omega
      simp only [List.dropWhile_cons, List.filter_cons, decide_eq_true_eq, h,
        h2, if_true, if_false, ite_true, ite_false]
      exact ih hys
    · have h2 : c ≤ y.ts_ms := by omega
      have hrest : ys.filter (fun x => c ≤ x.ts_ms) = ys :=
        List.filter_eq_self.mpr (fun a ha => by
          rw [decide_eq_true_iff]
          exact le_trans h2 (hy a ha))
      simp only [List.dropWhile_cons, List.filter_cons, decide_eq_true_eq, h,
        h2, if_true, if_false, ite_true, ite_false, hrest]

/-- Filtering by `q` first is invisible to a stronger filter `p`. -/
theorem filter_filter_of_imp {α : Type} (p q : α → Bool) (l : List α)
    (h : ∀ a ∈ l, p a = true → q a = true) :
    (l.filter q).filter p = l.filter p := by
  induction l with
  | nil => rfl
  | cons x xs ih =>
    have hxs := ih (fun a ha hp => h a (List.mem_cons_of_mem _ ha) hp)
    rw [List.filter_cons]
    by_cases hq : q x = true
    · rw [if_pos hq, List.filter_cons, List.filter_cons]
      by_cases hp : p x = true
      · rw [if_pos hp, if_pos hp, hxs]
      · rw [if_neg hp, if_neg hp, hxs]
    · rw [if_neg hq, List.filter_cons]
      by_cases hp : p x = true
      · exact absurd (h x (List.mem_cons_self x xs) hp) hq
      · rw [if_neg hp, hxs]

/-- `addAll` peels its last event. -/
theorem addAll_concat (cfg : Config) (windows : List (String × List WItem))
    (evs : List (EventIn × Int)) (p : EventIn × Int) :
    addAll cfg windows (evs ++ [p])
      = add_to_windows cfg (addAll cfg windows evs) p.1 p.2 := by
  induction evs generalizing windows with
  | nil =>
    obtain ⟨e, now⟩ := p
    rfl
  | cons q rest ih =>
    obtain ⟨e, now⟩ := q
    rw [List.cons_append, addAll, addAll]
    exact ih _

/-- Window contents after a whole run of inserts for key `K` with
non-decreasing timestamps: exactly the items within `WINDOW_SEC*1000` of
the *last inserted* timestamp, in insertion order. -/
theorem window_after_addAll (cfg : Config) (K : String)
    (evs : List (EventIn × Int)) :
    ∀ p : EventIn × Int,
      (∀ q ∈ evs ++ [p], q.1.ip = K) →
      ((evs ++ [p]).map (fun q => mkItem q.1 q.2)).Pairwise
        (fun a b => a.ts_ms ≤ b.ts_ms) →
      (alookup (addAll cfg [] (evs ++ [p])) K).getD []
        = ((evs ++ [p]).map (fun q => mkItem q.1 q.2)).filter
            (fun x => (mkItem p.1 p.2).ts_ms - x.ts_ms
              ≤ cfg.WINDOW_SEC * 1000) := by
  induction evs using List.reverseRecOn with
  | nil =>
    intro p hk _
    have hip : p.1.ip = K := hk p (by simp)
    rw [List.nil_append, addAll, addAll, add_to_windows, hip]
    simp only [alookup, alookup_aset_self, Option.getD_some, Option.getD_none,
      List.nil_append, List.map_cons, List.map_nil]
    rw [prune_window, dropWhile_sorted_eq_filter _ _ (by simp)]
    apply List.filter_congr
    intro a ha
    rw [List.mem_singleton] at ha
    subst ha
    rw [decide_eq_decide]
    have htsp : (mkItem p.1 p.2).ts_ms = p.1.ts_ms.getD p.2 := rfl
    rw [htsp]
    omega
  | append_singleton init q ih =>
    intro p hk hs
    have hip : p.1.ip = K := hk p (by simp)
    have hkIQ : ∀ r ∈ init ++ [q], r.1.ip = K := by
      intro r hr
      exact hk r (by rw [List.mem_append]; left; exact hr)
    have hsub : ((init ++ [q]).map (fun r => mkItem r.1 r.2)).Sublist
        (((init ++ [q]) ++ [p]).map (fun r => mkItem r.1 r.2)) := by
      rw [List.map_append _ (init ++ [q]) [p]]
      exact List.sublist_append_left _ _
    have hsIQ := hs.sublist hsub
    have hIH := ih q hkIQ hsIQ
    have hcross : ∀ a ∈ (init ++ [q]).map (fun r => mkItem r.1 r.2),
        a.ts_ms ≤ (mkItem p.1 p.2).ts_ms := by
      intro a ha
      have := (List.pairwise_append.mp
        (by rwa [List.map_append _ (init ++ [q]) [p]] at hs)).2.2
      exact this a ha (mkItem p.1 p.2) (by simp)
    have hq_le_p : (mkItem q.1 q.2).ts_ms ≤ (mkItem p.1 p.2).ts_ms := by
      apply hcross
      rw [List.map_append, List.mem_append]
      right
      simp
    rw [addAll_concat, add_to_windows, hip, alookup_aset_self,
      Option.getD_some]
    rw [hIH, prune_window]
    have hsortedArg :
        ((((init ++ [q]).map (fun r => mkItem r.1 r.2)).filter
            (fun x => (mkItem q.1 q.2).ts_ms - x.ts_ms
              ≤ cfg.WINDOW_SEC * 1000)) ++ [mkItem p.1 p.2]).Pairwise
          (fun a b => a.ts_ms ≤ b.ts_ms) := by
      apply hs.sublist
      rw [List.map_append _ (init ++ [q]) [p]]
      exact (List.filter_sublist _).append_right _
    rw [dropWhile_sorted_eq_filter (p.1.ts_ms.getD p.2 - cfg.WINDOW_SEC * 1000)
      _ hsortedArg]
    rw [List.filter_append]
    have himp : ∀ a ∈ (init ++ [q]).map (fun r => mkItem r.1 r.2),
        (decide (p.1.ts_ms.getD p.2 - cfg.WINDOW_SEC * 1000 ≤ a.ts_ms)) = true →
        (decide ((mkItem q.1 q.2).ts_ms - a.ts_ms
          ≤ cfg.WINDOW_SEC * 1000)) = true := by
      intro a _ hpa
      rw [decide_eq_true_iff] at hpa ⊢
      have hqp : (mkItem q.1 q.2).ts_ms ≤ p.1.ts_ms.getD p.2 := hq_le_p
      omega
    rw [filter_filter_of_imp _ _ _ himp, ← List.filter_append,
      List.map_append _ (init ++ [q]) [p]]
    apply List.filter_congr
    intro a _
    rw [decide_eq_decide]
    have htsp : (mkItem p.1 p.2).ts_ms = p.1.ts_ms.getD p.2 := rfl
    rw [htsp]
    omega

/-- **C1 counterexample.** After inserting a single sample at timestamp 0
for key `"1.2.3.4"`, a decision-time read at `t = 1000000` (well past the
60s window) still sees that sample: the code's statistics read takes no
reference time and performs no pruning, while the spec-side snapshot at
`t` is empty.  So the window contents read at decision time are *not*
"exactly the samples with `t - timestamp ≤ W`". -/
theorem C1_counterexample :
    (alookup (addAll defaultConfig [] [(ev0, 0)]) "1.2.3.4").getD []
        = [mkItem ev0 0]
    ∧ spec_snapshot defaultConfig 1000000
        ((alookup (addAll defaultConfig [] [(ev0, 0)]) "1.2.3.4").getD [])
        = []
    ∧ (compute_ip_stats defaultConfig (addAll defaultConfig [] [(ev0, 0)])
        "1.2.3.4").count = 1 := by
  decide

/-- **C1 (amended).** For every key and every sequence of recorded
samples with non-decreasing timestamps, the window contents read at
decision time contain exactly the samples within `WINDOW_SEC*1000` of the
*last inserted sample's* timestamp, in insertion order — pruning happens
only on insert, against the inserted timestamp; the statistics read
(`compute_ip_stats`) takes no reference time and counts the stored window
as-is, pruning nothing. -/
theorem C1_window_contents (cfg : Config) (K : String)
    (evs : List (EventIn × Int)) (hne : evs ≠ [])
    (hkeys : ∀ p ∈ evs, p.1.ip = K)
    (hmono : (evs.map (fun p => mkItem p.1 p.2)).Pairwise
      (fun a b => a.ts_ms ≤ b.ts_ms)) :
    (alookup (addAll cfg [] evs) K).getD []
      = (evs.map (fun p => mkItem p.1 p.2)).filter
          (fun x => (mkItem (evs.getLast hne).1 (evs.getLast hne).2).ts_ms
            - x.ts_ms ≤ cfg.WINDOW_SEC * 1000)
    ∧ ∀ (windows : List (String × List WItem)) (ip : String),
        (compute_ip_stats cfg windows ip).count
          = ((alookup windows ip).getD []).length := by
  constructor
  · rcases List.eq_nil_or_concat evs with h | ⟨init, p, rfl⟩
    · exact absurd h hne
    · simp only [List.concat_eq_append] at hkeys hmono ⊢
      have hg : (init ++ [p]).getLast (by simp) = p := List.getLast_concat _
      rw [hg]
      exact window_after_addAll cfg K init p hkeys hmono
  · intro windows ip
    rw [compute_ip_stats]
    cases h : alookup windows ip with
    | none => rfl
    | some w =>
      by_cases hw : w = []
      · subst hw
        rfl
      · simp [hw]

/-- Witness for C1 (amended): two in-order samples at 0 and 1000 inside
one 60s window are both retained, and the count read matches the stored
window. -/
theorem C1_window_contents_witness :
    ((alookup (addAll defaultConfig [] [(ev0, 0), (ev200a, 1000)])
        "1.2.3.4").getD []
      = ([(ev0, (0 : Int)), (ev200a, 1000)].map
          (fun p => mkItem p.1 p.2)).filter
          (fun x =>
            (mkItem
              (([(ev0, (0 : Int)), (ev200a, 1000)].getLast (by decide))).1
              (([(ev0, (0 : Int)), (ev200a, 1000)].getLast (by decide))).2).ts_ms
              - x.ts_ms ≤ defaultConfig.WINDOW_SEC * 1000)
    ∧ ∀ (windows : List (String × List WItem)) (ip : String),
        (compute_ip_stats defaultConfig windows ip).count
          = ((alookup windows ip).getD []).length) :=
  C1_window_contents defaultConfig "1.2.3.4" [(ev0, 0), (ev200a, 1000)]
    (by decide) (by decide)
    (by
      simp only [List.map_cons, List.map_nil]
      exact List.pairwise_cons.mpr ⟨by
        intro b hb
        rw [List.mem_singleton] at hb
        subst hb
        decide, List.pairwise_singleton _ _⟩)

end SessionBrain
